import Mathlib

set_option maxRecDepth 100000

set_option maxHeartbeats 2000000

/-!
Verification of the HatenaBlog extraction core
(`gallery_dl/extractor/hatenablog.py`): the marker-based article parser,
the dual-layout dispatcher and the pagination driver.  Documents are
modelled as `List Char`; the extractor classes become explicit functions
threading the marker-cursor position.
-/

/-- Test whether `pat` occurs at the start of `s` (a literal match,
as used by every marker search below). -/
def litAt : List Char → List Char → Bool
  | [], _ => true
  | _ :: _, [] => false
  | c :: cs, d :: ds => c == d && litAt cs ds

/-- Index of the first occurrence of `pat` in `s`, mirroring Python's
`str.index` / `str.find` (an empty pattern matches at index 0). -/
def substrIdx : List Char → List Char → Option Nat
  | [], pat => if pat.isEmpty then some 0 else none
  | c :: rest, pat =>
    if litAt pat (c :: rest) then some 0 else (substrIdx rest pat).map (· + 1)

/-- Index of the first occurrence of `pat` in `s` at or after `start`,
mirroring Python's `str.index(pat, start)`. -/
def substrIdxFrom (s pat : List Char) (start : Nat) : Option Nat :=
  (substrIdx (s.drop start) pat).map (· + start)

/-- Boolean substring test, mirroring Python's `pat in s`. -/
def containsSub (s pat : List Char) : Bool :=
  (substrIdx s pat).isSome

/-- Everything after the first occurrence of `pat` in `s`; the empty list
when `pat` does not occur.  This is Python's `s.partition(pat)[2]`. -/
def afterFirst (s pat : List Char) : List Char :=
  match substrIdx s pat with
  | none => []
  | some i => s.drop (i + pat.length)

/-- Modelled from the spec: the Marker Cursor (`text.extract_from` in the
repository's text-utility module, which is not included under `src/`).
Per §4.1, given the current position it returns the substring strictly
between the first occurrence of `begMark` at or after the position and the
first occurrence of `endMark` after that, advancing the position to just
past `endMark`; an empty `begMark` matches at the current position; when
either marker is absent it returns the empty string and leaves the
position unchanged (it never raises). -/
def extract_from (doc begMark endMark : List Char) (pos : Nat) :
    List Char × Nat :=
  match substrIdxFrom doc begMark pos with
  | none => ([], pos)
  | some i =>
    let first := i + begMark.length
    match substrIdxFrom doc endMark first with
    | none => ([], pos)
    | some last => ((doc.drop first).take (last - first), last + endMark.length)

/-- Modelled from the spec: the one-shot variant `text.extr` (same
text-utility module, not under `src/`): the substring between the first
occurrence of `begMark` and the following `endMark`, or empty. -/
def text_extr (s begMark endMark : List Char) : List Char :=
  (extract_from s begMark endMark 0).1

/-- Modelled from the spec: the external "unescape HTML entities"
collaborator (§1, §6 treat it as an already-correct library call).  The
model decodes the standard named references and the apostrophe reference
and leaves all other text unchanged. -/
def unescape : List Char → List Char
  | [] => []
  | '&' :: 'a' :: 'm' :: 'p' :: ';' :: rest => '&' :: unescape rest
  | '&' :: 'l' :: 't' :: ';' :: rest => '<' :: unescape rest
  | '&' :: 'g' :: 't' :: ';' :: rest => '>' :: unescape rest
  | '&' :: 'q' :: 'u' :: 'o' :: 't' :: ';' :: rest => '"' :: unescape rest
  | '&' :: '#' :: '3' :: '9' :: ';' :: rest => '\'' :: unescape rest
  | c :: rest => c :: unescape rest

/-! Marker literals taken verbatim from `hatenablog.py`. -/

def timeBeg : List Char := "<time datetime=\"".data

def quoteMark : List Char := "\"".data

def hrefBeg : List Char := "<a href=\"".data

def anchorEnd : List Char := "\" class=\"entry-title-link bookmark\">".data

def aClose : List Char := "</a>".data

def contentBeg : List Char := "<div class=\"entry-content hatenablog-entry\">".data

def divClose : List Char := "</div>".data

def entrySep : List Char := "/entry/".data

def articleBeg : List Char := "<article ".data

def gtMark : List Char := ">".data

def articleClose : List Char := "</article>".data

def noEntryLit : List Char := "no-entry".data

def bodyBeg : List Char := "<body ".data

def archiveLit : List Char := "page-archive".data

def sectionBeg : List Char := "<section class=\"archive-entry".data

def sectionClose : List Char := "</section>".data

def summaryHrefBeg : List Char := "<a class=\"entry-title-link\" href=\"".data

def hatenaTag : List Char := "hatenablog:".data

def pagerSpanLit : List Char := "<span class=\"pager-next\">".data

def pagerNextLit : List Char := "pager-next".data

def fotoLit : List Char := "class=\"hatena-fotolife\"".data

def srcLit : List Char := "src=\"".data

def imgLit : List Char := "<img".data

def pageKey : List Char := "page".data

def httpsLit : List Char := "https://".data

/-! Models of the three compiled regular expressions of `hatenablog.py`.
Each is translated as a function with the exact leftmost-match /
greedy-vs-lazy backtracking behaviour of the Python pattern on the inputs
the extractor feeds it (attribute strings produced by a `.+?` group never
contain a newline, so `$` coincides with end-of-string). -/

/-- Whitespace class of Python's `\s` (ASCII range). -/
def isWs (c : Char) : Bool :=
  c == ' ' || c == '\t' || c == '\n' || c == '\r' || c == '\x0b' || c == '\x0c'

/-- Lazy capture for `(.+?)"`: the shortest non-empty newline-free prefix
followed by a double quote (the accumulator holds the reversed prefix). -/
def lazyCaptureGo (acc : List Char) : List Char → Option (List Char)
  | [] => none
  | c :: rest =>
    if c == '"' then some acc.reverse
    else if c == '\n' then none
    else lazyCaptureGo (c :: acc) rest

/-- Lazy capture for `(.+?)"` with a mandatory first group character. -/
def lazyCapture : List Char → Option (List Char)
  | [] => none
  | c :: rest => if c == '\n' then none else lazyCaptureGo [c] rest

/-- Attempt of the pattern `<span class="pager-next">\s*<a href="(.+?)"`
anchored at the start of `s`. -/
def pagerTry (s : List Char) : Option (List Char) :=
  if litAt pagerSpanLit s then
    let s1 := (s.drop pagerSpanLit.length).dropWhile isWs
    if litAt hrefBeg s1 then lazyCapture (s1.drop hrefBeg.length) else none
  else none

/-- Model of `_find_pager_url`: `re.search` of the pattern above, i.e. the
leftmost position at which `pagerTry` succeeds. -/
def find_pager_url : List Char → Option (List Char)
  | [] => none
  | c :: rest =>
    match pagerTry (c :: rest) with
    | some g => some g
    | none => find_pager_url rest

/-- Length consumed by the tail ` */?>` of the image pattern: a maximal
run of spaces, an optional slash, then `>` (the backtracking of ` *` and
`/?` cannot produce any other parse, since a space is neither `/` nor `>`). -/
def imgTailLen (s : List Char) : Option Nat :=
  let k := (s.takeWhile (· == ' ')).length
  match s.drop k with
  | '>' :: _ => some (k + 1)
  | '/' :: '>' :: _ => some (k + 2)
  | _ => none

/-- Lazy group scan for `(.+?) */?>`: extend the group one (non-newline)
character at a time, preferring the shortest group whose tail matches;
returns the group and the rest of the input after the whole match. -/
def imgGroupGo (acc : List Char) : List Char → Option (List Char × List Char)
  | [] => none
  | c :: rest =>
    if c == '\n' then none
    else
      match imgTailLen rest with
      | some t => some ((c :: acc).reverse, rest.drop t)
      | none => imgGroupGo (c :: acc) rest

/-- Greedy backtracking over the space run of `<img +`: try `k` spaces,
largest first (Python's greedy `+`), each time matching the lazy group
after them. -/
def imgTryK (rest : List Char) : Nat → Option (List Char × List Char)
  | 0 => none
  | k + 1 =>
    match imgGroupGo [] (rest.drop (k + 1)) with
    | some r => some r
    | none => imgTryK rest k

/-- Attempt of the pattern `<img +(.+?) */?>` anchored at the start of `s`;
returns the captured attribute string and the rest after the match. -/
def imgMatchAt (s : List Char) : Option (List Char × List Char) :=
  if litAt imgLit s then
    let rest := s.drop imgLit.length
    imgTryK rest ((rest.takeWhile (· == ' ')).length)
  else none

/-- Model of `_find_img` (`finditer`): all non-overlapping matches of the
image pattern, scanning left to right and resuming after each match.
`fuel` bounds the scan; `find_img` below supplies `s.length`, which is
sufficient because every step consumes at least one character. -/
def findImgGo : Nat → List Char → List (List Char)
  | 0, _ => []
  | _, [] => []
  | fuel + 1, c :: rest =>
    match imgMatchAt (c :: rest) with
    | some (grp, after) => grp :: findImgGo fuel after
    | none => findImgGo fuel rest

/-- All captured attribute strings of `<img +(.+?) */?>` in `s`,
in document order. -/
def find_img (s : List Char) : List (List Char) :=
  findImgGo s.length s

/-- Does the next character position start with a space, or is the input
exhausted (the `(?: |$)` trailing context)? -/
def spaceOrEnd : List Char → Bool
  | [] => true
  | c :: _ => c == ' '

/-- Scan of `(?: |^)class="hatena-fotolife"(?: |$)`: `ok` records whether
the current position is the start of the string or is preceded by a space. -/
def isImageAux (ok : Bool) : List Char → Bool
  | [] => false
  | c :: rest =>
    (ok && litAt fotoLit (c :: rest) && spaceOrEnd ((c :: rest).drop fotoLit.length))
      || isImageAux (c == ' ') rest

/-- Model of `_is_image`: `re.search` of
`(?: |^)class="hatena-fotolife"(?: |$)` as a Boolean. -/
def is_image (attrs : List Char) : Bool :=
  isImageAux true attrs

/-- Lazy group scan for `src="(.+?)"(?: |$)`: prefer the shortest
non-empty group whose closing quote is followed by a space or the end;
a quote failing that check is swallowed into the group (backtracking). -/
def srcGroupGo (acc : List Char) : List Char → Option (List Char)
  | [] => none
  | c :: rest =>
    if c == '\n' then none
    else if c == '"' && !acc.isEmpty && spaceOrEnd rest then some acc.reverse
    else srcGroupGo (c :: acc) rest

/-- Attempt of `src="(.+?)"(?: |$)` anchored at the start of `s`. -/
def srcAt (s : List Char) : Option (List Char) :=
  if litAt srcLit s then srcGroupGo [] (s.drop srcLit.length) else none

/-- Positional scan of `(?: |^)src="(.+?)"(?: |$)`: `ok` records whether
the position is the string start or preceded by a space. -/
def findImgSrcAux (ok : Bool) : List Char → Option (List Char)
  | [] => none
  | c :: rest =>
    match (if ok then srcAt (c :: rest) else none) with
    | some g => some g
    | none => findImgSrcAux (c == ' ') rest

/-- Model of `_find_img_src`: `re.search` of
`(?: |^)src="(.+?)"(?: |$)`, returning the captured source URL. -/
def find_img_src (attrs : List Char) : Option (List Char) :=
  findImgSrcAux true attrs

/-! Data model: the Article Record and the three output message kinds of
the stream protocol (Directory, Url, Queue). -/

/-- An Article Record as assembled by `_handle_article` (the `data` dict
of the Directory message).  The external `text.parse_datetime`
collaborator is excluded by the spec (§1, §6) and never raises, so the
model carries the raw `datetime` attribute text in `date`. -/
structure ArticleRec where
  domain : List Char
  date : List Char
  entry : List Char
  title : List Char
  count : Nat
deriving DecidableEq, Repr

/-- One emitted item of the output stream protocol. -/
inductive Msg where
  | directory : ArticleRec → Msg
  | url : List Char → Nat → Msg
  | queue : List Char → Msg
deriving DecidableEq, Repr

/-- True for Directory messages. -/
def Msg.isDirectory : Msg → Bool
  | .directory _ => true
  | _ => false

/-- True for Url messages. -/
def Msg.isUrl : Msg → Bool
  | .url _ _ => true
  | _ => false

/-- True for Queue messages. -/
def Msg.isQueue : Msg → Bool
  | .queue _ => true
  | _ => false

/-- The four metadata fields `_handle_article` pulls from an article
fragment with the Marker Cursor, in source order: the `datetime`
attribute, the unescaped canonical link, the title, the content region. -/
structure ArticleFields where
  date : List Char
  link : List Char
  title : List Char
  content : List Char
deriving DecidableEq, Repr

/-- Metadata extraction of `_handle_article` (lines 112-119): four
successive Marker Cursor extractions threading one position. -/
def parseArticle (article : List Char) : ArticleFields :=
  let d := extract_from article timeBeg quoteMark 0
  let l := extract_from article hrefBeg anchorEnd d.2
  let t := extract_from article [] aClose l.2
  let c := extract_from article contentBeg divClose t.2
  ⟨d.1, unescape l.1, t.1, c.1⟩

/-- Image-collection loop of `_handle_article` (lines 121-127): keep the
matches whose attributes satisfy `_is_image`; for a kept match the source
URL is taken from an unguarded `.group(1)` on the `_find_img_src` search,
so a kept match without a source is an exception, modelled as `none`. -/
def collectImages : List (List Char) → Option (List (List Char))
  | [] => some []
  | a :: rest =>
    if is_image a then
      match find_img_src a with
      | none => none
      | some src => (collectImages rest).map (unescape src :: ·)
    else collectImages rest

/-- Url messages numbered from `n` upward (the `enumerate(images, 1)`
loop of line 137). -/
def enumUrls (n : Nat) : List (List Char) → List Msg
  | [] => []
  | u :: rest => Msg.url u n :: enumUrls (n + 1) rest

/-- Model of `_handle_article`: the emitted messages and an error flag.
The flag is `true` when the image loop raised (which happens before the
first `yield`, so nothing is emitted); otherwise one Directory message
followed by the numbered Url messages. -/
def handle_article (domain article : List Char) : List Msg × Bool :=
  let f := parseArticle article
  match collectImages (find_img f.content) with
  | none => ([], true)
  | some imgs =>
    (Msg.directory ⟨domain, f.date, afterFirst f.link entrySep, f.title, imgs.length⟩
      :: enumUrls 1 imgs, false)

/-- Model of `_handle_full_articles` (lines 182-191): repeatedly extract
`<article ...>` opening tags; stop on an empty attribute string, skip
fragments whose attributes contain `no-entry`, hand the rest to the
article parser.  `fuel` bounds the loop (each iteration advances the
cursor by at least one character). -/
def handle_full_articles (domain doc : List Char) : Nat → Nat → List Msg × Bool
  | 0, _ => ([], false)
  | fuel + 1, pos =>
    let a := extract_from doc articleBeg gtMark pos
    if a.1.isEmpty then ([], false)
    else if containsSub a.1 noEntryLit then handle_full_articles domain doc fuel a.2
    else
      let b := extract_from doc [] articleClose a.2
      let r := handle_article domain b.1
      if r.2 then (r.1, true)
      else
        let res := handle_full_articles domain doc fuel b.2
        (r.1 ++ res.1, res.2)

/-- Model of `_handle_partial_articles` (lines 171-180): repeatedly
extract `<section class="archive-entry...</section>` fragments; stop on an
empty fragment; for each, emit a Queue message whose URL is the synthetic
`hatenablog:` tag plus the unescaped summary link. -/
def handle_partial_articles (doc : List Char) : Nat → Nat → List Msg
  | 0, _ => []
  | fuel + 1, pos =>
    let s := extract_from doc sectionBeg sectionClose pos
    if s.1.isEmpty then []
    else
      Msg.queue (hatenaTag ++ unescape (text_extr s.1 summaryHrefBeg quoteMark))
        :: handle_partial_articles doc fuel s.2

/-- Layout dispatch of `items` (lines 160-165): extract the opening
body-tag attributes; `page-archive` selects the partial layout, anything
else the full layout. -/
def dispatchPage (domain page : List Char) : List Msg × Bool :=
  let b := extract_from page bodyBeg gtMark 0
  if containsSub b.1 archiveLit then
    (handle_partial_articles page (page.length + 1) b.2, false)
  else handle_full_articles domain page (page.length + 1) b.2

/-- A query mapping as passed to the fetch collaborator: an association
list of key/value pairs, or `none` for "no extra query". -/
abbrev QueryMap : Type := List (List Char × List Char)

/-- A fetch collaborator (§6): URL and optional query in, body text out. -/
abbrev Fetch : Type := List Char → Option QueryMap → List Char

/-- Model of the `items` pagination loop of `HatenaBlogEntriesExtractor`
(lines 153-169), parameterised by the fetch collaborator.  Returns the
request trace (URL and query of every fetch, in order), the emitted
messages, and the error flag.  After dispatching a page it searches the
raw body for the pager link; the unescaped href becomes the next URL and
the query is reset to `none`.  `fuel` bounds the number of page fetches. -/
def itemsLoop (fetch : Fetch) (domain : List Char) :
    Nat → List Char → Option QueryMap →
    List (List Char × Option QueryMap) × List Msg × Bool
  | 0, _, _ => ([], [], false)
  | fuel + 1, url, query =>
    let page := fetch url query
    let r := dispatchPage domain page
    if r.2 then ([(url, query)], r.1, true)
    else
      match find_pager_url page with
      | none => ([(url, query)], r.1, false)
      | some nxt =>
        let res := itemsLoop fetch domain fuel (unescape nxt) none
        ((url, query) :: res.1, r.1 ++ res.2.1, res.2.2)

/-- A whole run of `HatenaBlogEntriesExtractor.items`: the first URL is
`https://` + domain + path and the first request carries the constructed
query mapping (line 154-155). -/
def entriesItems (fetch : Fetch) (domain path : List Char) (query : QueryMap)
    (fuel : Nat) : List (List Char × Option QueryMap) × List Msg × Bool :=
  itemsLoop fetch domain fuel (httpsLit ++ domain ++ path) (some query)

/-- One transition of the Pagination Driver: `none` when the run stops
(an article error, or no pager link on the fetched page), otherwise the
next state, whose query is always `none`. -/
def stepState (fetch : Fetch) (domain : List Char)
    (s : List Char × Option QueryMap) : Option (List Char × Option QueryMap) :=
  let page := fetch s.1 s.2
  if (dispatchPage domain page).2 then none
  else (find_pager_url page).map (fun nxt => (unescape nxt, none))

/-- Iterated driver transitions: `none` when the run stops strictly
within `k` steps from state `s`. -/
def statesFrom (fetch : Fetch) (domain : List Char) :
    Nat → List Char × Option QueryMap → Option (List Char × Option QueryMap)
  | 0, s => some s
  | k + 1, s =>
    match stepState fetch domain s with
    | none => none
    | some s2 => statesFrom fetch domain k s2

/-- Model of `HatenaBlogEntryExtractor.items` (lines 207-217) run on the
fetched page: loop over `<article ...>` opening tags from position 0,
skipping `no-entry` fragments, and return the article parser's output for
the first remaining fragment (the loop has no empty-attributes exit). -/
def entryItemsGo (domain page : List Char) : Nat → Nat → List Msg × Bool
  | 0, _ => ([], false)
  | fuel + 1, pos =>
    let a := extract_from page articleBeg gtMark pos
    if containsSub a.1 noEntryLit then entryItemsGo domain page fuel a.2
    else handle_article domain (extract_from page [] articleClose a.2).1

/-- A whole run of `HatenaBlogEntryExtractor.items` on a fetched page. -/
def entryItems (domain page : List Char) : List Msg × Bool :=
  entryItemsGo domain page (page.length + 1) 0

/-- Query-key predicate `_acceptable_query` (lines 193-194): the key is
`page` or belongs to the route's `allowed_parameters`. -/
def acceptable_query (allowed : List (List Char)) (key : List Char) : Bool :=
  key == pageKey || allowed.contains key

/-- Modelled from the spec: the external generic query-string parser
(`text.parse_query`, §1 and §6 exclude it as an already-correct library
call): split the raw query on `&`, keep the `key=value` parts (key =
text before the first `=`), first occurrence of a key wins. -/
def splitAmp (cur : List Char) : List Char → List (List Char)
  | [] => [cur.reverse]
  | c :: rest => if c == '&' then cur.reverse :: splitAmp [] rest else splitAmp (c :: cur) rest

/-- Split one `key=value` part at its first `=`; `none` when there is none. -/
def splitKV (cur : List Char) : List Char → Option (List Char × List Char)
  | [] => none
  | c :: rest => if c == '=' then some (cur.reverse, rest) else splitKV (c :: cur) rest

/-- Drop pairs whose key was already seen (first occurrence wins). -/
def dedupKeys (seen : List (List Char)) : List (List Char × List Char) → List (List Char × List Char)
  | [] => []
  | kv :: rest =>
    if seen.contains kv.1 then dedupKeys seen rest
    else kv :: dedupKeys (kv.1 :: seen) rest

/-- Modelled from the spec: `text.parse_query` as a whole. -/
def parse_query (s : List Char) : List (List Char × List Char) :=
  dedupKeys [] ((splitAmp [] s).filterMap (splitKV []))

/-- The query mapping constructed by `HatenaBlogEntriesExtractor.__init__`
(lines 148-149): the parsed query filtered by `_acceptable_query`. -/
def initQuery (allowed : List (List Char)) (raw : List Char) : QueryMap :=
  (parse_query raw).filter (fun kv => acceptable_query allowed kv.1)

/-- The `allowed_parameters` of the Search route (line 240). -/
def searchAllowed : List (List Char) := ["q".data]

/-- A concrete article fragment whose canonical link contains no
`/entry/` substring. -/
def noEntryLinkArticle : List Char :=
  ("<time datetime=\"D\"><a href=\"https://h.example/post/1\""
    ++ " class=\"entry-title-link bookmark\">T</a>"
    ++ "<div class=\"entry-content hatenablog-entry\"></div>").data

/-- A concrete article fragment whose canonical link is the spec's
worked example `https://h.example/entry/2024/01/02/1234`. -/
def entryLinkArticle : List Char :=
  ("<time datetime=\"D\"><a href=\"https://h.example/entry/2024/01/02/1234\""
    ++ " class=\"entry-title-link bookmark\">T</a>"
    ++ "<div class=\"entry-content hatenablog-entry\"></div>").data

/-- A concrete Entry-route page: one `no-entry` placeholder article
followed by one real article. -/
def noEntryThenRealPage : List Char :=
  ("<article class=\"no-entry\"><p>x</p></article>"
    ++ "<article class=\"e\"><time datetime=\"D\">"
    ++ "<a href=\"https://h.example/entry/a\" class=\"entry-title-link bookmark\">T</a>"
    ++ "<div class=\"entry-content hatenablog-entry\">"
    ++ "<img src=\"u\" class=\"hatena-fotolife\"></div>"
    ++ "</article>").data

/-- A concrete article fragment with one qualifying image between two
non-qualifying ones. -/
def mixedImagesArticle : List Char :=
  ("<time datetime=\"D\"><a href=\"https://h.example/entry/a\""
    ++ " class=\"entry-title-link bookmark\">T</a>"
    ++ "<div class=\"entry-content hatenablog-entry\">"
    ++ "<img src=\"u1\" class=\"deco\">"
    ++ "<img src=\"u2\" class=\"hatena-fotolife\">"
    ++ "<img src=\"u3\">"
    ++ "</div>").data

/-- One archive-entry summary section of the concrete partial page. -/
def archiveSection (n : Char) : List Char :=
  ("<section class=\"archive-entry\">"
    ++ "<a class=\"entry-title-link\" href=\"https://b.example/entry/").data
    ++ [n] ++ "\">t</a></section>".data

/-- A concrete partial-layout (archive) listing page: `page-archive` body
attributes, five entry summaries, no `pager-next` marker. -/
def archivePage : List Char :=
  "<body class=\"page-archive\">".data
    ++ archiveSection '1' ++ archiveSection '2' ++ archiveSection '3'
    ++ archiveSection '4' ++ archiveSection '5' ++ "</body>".data

/-- The Queue message expected for one summary of `archivePage`. -/
def archiveQueueMsg (n : Char) : Msg :=
  Msg.queue ("hatenablog:https://b.example/entry/".data ++ [n])

/-- A concrete article whose only content image qualifies but carries no
`src="..."` attribute. -/
def fotoNoSrcArticle : List Char :=
  ("<time datetime=\"D\"><a href=\"https://h.example/entry/a\""
    ++ " class=\"entry-title-link bookmark\">T</a>"
    ++ "<div class=\"entry-content hatenablog-entry\">"
    ++ "<img class=\"hatena-fotolife\"></div>").data

/-! Sanity checks of the embedded primitives on concrete inputs. -/

example : extract_from "a<b>c".data "<".data ">".data 0 = ("b".data, 4) := by decide

example : afterFirst "x/entry/abc".data "/entry/".data = "abc".data := by decide

example : containsSub "hello".data "ell".data = true := by decide

example : find_pager_url "..<span class=\"pager-next\">\n <a href=\"/p2\">x".data
    = some "/p2".data := by decide

example : find_pager_url "no pager here".data = none := by decide

example : find_img "a<img  src=\"u\" class=\"x\">b<img class=\"y\"/>".data
    = ["src=\"u\" class=\"x\"".data, "class=\"y\"".data] := by decide

example : is_image "src=\"u\" class=\"hatena-fotolife\"".data = true := by decide

example : is_image "class=\"hatena-fotolifeX\"".data = false := by decide

example : find_img_src "class=\"c\" src=\"http://u/i.jpg\"".data
    = some "http://u/i.jpg".data := by decide

example : find_img_src "class=\"hatena-fotolife\"".data = none := by decide

example : parse_query "q=a&utm_source=x".data
    = [("q".data, "a".data), ("utm_source".data, "x".data)] := by decide

example : initQuery searchAllowed "q=a&utm_source=x".data
    = [("q".data, "a".data)] := by decide

/-! Helper lemmas about the scanning primitives. -/

theorem litAt_iff (pat s : List Char) : litAt pat s = true ↔ ∃ r, s = pat ++ r := by
  induction pat generalizing s with
  | nil => simp [litAt]
  | cons c cs ih =>
    cases s with
    | nil => simp [litAt]
    | cons d ds =>
      simp only [litAt, Bool.and_eq_true, beq_iff_eq, ih, List.cons_append,
        List.cons.injEq]
      constructor
      · rintro ⟨rfl, r, rfl⟩
        exact ⟨r, rfl, rfl⟩
      · rintro ⟨r, rfl, rfl⟩
        exact ⟨rfl, r, rfl⟩

theorem substrIdx_decomp (s pat : List Char) (i : Nat)
    (h : substrIdx s pat = some i) : ∃ l r, s = l ++ pat ++ r ∧ l.length = i := by
  induction s generalizing i with
  | nil =>
    by_cases hp : pat.isEmpty
    · simp only [substrIdx, hp, if_true, Option.some.injEq] at h
      subst h
      exact ⟨[], [], by simp [List.isEmpty_iff.mp hp], rfl⟩
    · simp [substrIdx, hp] at h
  | cons c rest ih =>
    by_cases hl : litAt pat (c :: rest)
    · simp only [substrIdx, hl, if_true, Option.some.injEq] at h
      subst h
      obtain ⟨r, hr⟩ := (litAt_iff pat (c :: rest)).mp hl
      exact ⟨[], r, by simpa using hr, rfl⟩
    · simp [substrIdx, hl, Option.map_eq_some'] at h
      obtain ⟨j, hj, rfl⟩ := h
      obtain ⟨l, r, hlr, hlen⟩ := ih j hj
      exact ⟨c :: l, r, by simp [hlr], by simp [hlen]⟩

theorem substrIdx_litAt (s pat : List Char) (i : Nat)
    (h : substrIdx s pat = some i) : litAt pat (s.drop i) = true := by
  induction s generalizing i with
  | nil =>
    by_cases hp : pat.isEmpty
    · simp only [substrIdx, hp, if_true, Option.some.injEq] at h
      subst h
      cases pat with
      | nil => simp [litAt]
      | cons d ds => simp at hp
    · simp [substrIdx, hp] at h
  | cons c rest ih =>
    by_cases hl : litAt pat (c :: rest)
    · simp only [substrIdx, hl, if_true, Option.some.injEq] at h
      subst h
      simpa using hl
    · simp [substrIdx, hl, Option.map_eq_some'] at h
      obtain ⟨j, hj, rfl⟩ := h
      simpa using ih j hj

theorem substrIdx_minimal (s pat : List Char) (i : Nat)
    (h : substrIdx s pat = some i) :
    ∀ j, j < i → litAt pat (s.drop j) = false := by
  induction s generalizing i with
  | nil =>
    intro j hj
    by_cases hp : pat.isEmpty
    · simp only [substrIdx, hp, if_true, Option.some.injEq] at h
      omega
    · simp [substrIdx, hp] at h
  | cons c rest ih =>
    intro j hj
    by_cases hl : litAt pat (c :: rest)
    · simp only [substrIdx, hl, if_true, Option.some.injEq] at h
      omega
    · simp [substrIdx, hl, Option.map_eq_some'] at h
      obtain ⟨k, hk, rfl⟩ := h
      cases j with
      | zero => simpa using Bool.eq_false_iff.mpr (fun hc => hl (by simpa using hc))
      | succ j2 => simpa using ih k hk j2 (by omega)

theorem substrIdx_nil_pat (s : List Char) : substrIdx s [] = some 0 := by
  cases s <;> simp [substrIdx, litAt]

theorem containsSub_of_decomp (l pat r : List Char) :
    containsSub (l ++ pat ++ r) pat = true := by
  induction l with
  | nil =>
    cases pat with
    | nil => simp [containsSub, substrIdx_nil_pat]
    | cons d ds =>
      have hl : litAt (d :: ds) (d :: (ds ++ r)) = true :=
        (litAt_iff _ _).mpr ⟨r, by simp⟩
      simp [containsSub, substrIdx, hl]
  | cons c cs ih =>
    by_cases hl : litAt pat (c :: (cs ++ (pat ++ r)))
    · simp [containsSub, substrIdx, List.append_assoc, hl]
    · simp only [containsSub, List.append_assoc, List.cons_append] at ih ⊢
      simp only [substrIdx, hl, if_false]
      simpa [Option.isSome_map] using ih

theorem containsSub_decomp (s pat : List Char) (h : containsSub s pat = true) :
    ∃ l r, s = l ++ pat ++ r := by
  simp only [containsSub, Option.isSome_iff_exists] at h
  obtain ⟨i, hi⟩ := h
  obtain ⟨l, r, hlr, _⟩ := substrIdx_decomp s pat i hi
  exact ⟨l, r, hlr⟩

theorem containsSub_cons (c : Char) (s pat : List Char)
    (h : containsSub s pat = true) : containsSub (c :: s) pat = true := by
  obtain ⟨l, r, rfl⟩ := containsSub_decomp s pat h
  exact containsSub_of_decomp (c :: l) pat r

theorem containsSub_trans (s pat a b : List Char)
    (h : containsSub s (a ++ pat ++ b) = true) : containsSub s pat = true := by
  obtain ⟨l, r, rfl⟩ := containsSub_decomp s _ h
  have : l ++ (a ++ pat ++ b) ++ r = (l ++ a) ++ pat ++ (b ++ r) := by simp
  rw [this]
  exact containsSub_of_decomp (l ++ a) pat (b ++ r)

theorem substrIdx_drop_contains (s pat : List Char) (n j : Nat)
    (h : substrIdx (s.drop n) pat = some j) : containsSub s pat = true := by
  obtain ⟨l, r, hlr, _⟩ := substrIdx_decomp (s.drop n) pat j h
  have hs : s = s.take n ++ (l ++ pat ++ r) := by
    conv_lhs => rw [← List.take_append_drop n s]
    rw [hlr]
  rw [hs, show s.take n ++ (l ++ pat ++ r) = (s.take n ++ l) ++ pat ++ r by simp]
  exact containsSub_of_decomp (s.take n ++ l) pat r

theorem substrIdxFrom_none_of_not_contains (doc pat : List Char) (pos : Nat)
    (h : containsSub doc pat = false) : substrIdxFrom doc pat pos = none := by
  unfold substrIdxFrom
  cases hq : substrIdx (doc.drop pos) pat with
  | none => rfl
  | some j =>
    rw [substrIdx_drop_contains doc pat pos j hq] at h
    cases h

theorem extract_from_no_beg (doc begMark endMark : List Char) (pos : Nat)
    (h : containsSub doc begMark = false) :
    extract_from doc begMark endMark pos = ([], pos) := by
  unfold extract_from
  rw [substrIdxFrom_none_of_not_contains doc begMark pos h]

theorem extract_from_no_end (doc begMark endMark : List Char) (pos : Nat)
    (h : containsSub doc endMark = false) :
    extract_from doc begMark endMark pos = ([], pos) := by
  unfold extract_from
  cases hb : substrIdxFrom doc begMark pos with
  | none => rfl
  | some i =>
    simp only []
    rw [substrIdxFrom_none_of_not_contains doc endMark _ h]

theorem afterFirst_of_not_contains (s pat : List Char)
    (h : containsSub s pat = false) : afterFirst s pat = [] := by
  unfold afterFirst
  cases hq : substrIdx s pat with
  | none => rfl
  | some i =>
    unfold containsSub at h
    rw [hq] at h
    cases h

/-- The pager-span literal decomposes around the bare `pager-next` token. -/
theorem pagerSpanLit_decomp :
    pagerSpanLit = "<span class=\"".data ++ pagerNextLit ++ "\">".data := by decide

/-- A successful pager search implies the raw page contains `pager-next`. -/
theorem find_pager_url_contains (page g : List Char)
    (h : find_pager_url page = some g) : containsSub page pagerNextLit = true := by
  induction page with
  | nil => simp [find_pager_url] at h
  | cons c rest ih =>
    rw [find_pager_url] at h
    cases hp : pagerTry (c :: rest) with
    | some g2 =>
      have hlit : litAt pagerSpanLit (c :: rest) = true := by
        by_contra hn
        rw [pagerTry, if_neg hn] at hp
        cases hp
      obtain ⟨r, hr⟩ := (litAt_iff _ _).mp hlit
      rw [hr, pagerSpanLit_decomp,
        show ("<span class=\"".data ++ pagerNextLit ++ "\">".data) ++ r
          = "<span class=\"".data ++ pagerNextLit ++ ("\">".data ++ r) by simp]
      exact containsSub_of_decomp _ _ _
    | none =>
      rw [hp] at h
      exact containsSub_cons c rest pagerNextLit (ih h)

/-- Contrapositive: a page with no `pager-next` token has no pager match. -/
theorem find_pager_url_none (page : List Char)
    (h : containsSub page pagerNextLit = false) : find_pager_url page = none := by
  cases hp : find_pager_url page with
  | none => rfl
  | some g =>
    rw [find_pager_url_contains page g hp] at h
    cases h

/-- Every request of a run started with no query carries no query. -/
theorem itemsLoop_trace_query_none (fetch : Fetch) (domain : List Char) :
    ∀ fuel url, ((itemsLoop fetch domain fuel url none).1.all fun p => p.2.isNone) = true := by
  intro fuel
  induction fuel with
  | zero => intro url; simp [itemsLoop]
  | succ n ih =>
    intro url
    rw [itemsLoop]
    by_cases hd : (dispatchPage domain (fetch url none)).2 = true
    · simp [hd]
    · cases hfp : find_pager_url (fetch url none) with
      | none => simp [hd, hfp]
      | some nxt => simp [hd, hfp, ih]

/-- A run whose driver chain dies within `k` transitions performs at most
`k` fetches, whatever the fuel. -/
theorem itemsLoop_dead_chain_len (fetch : Fetch) (domain : List Char) :
    ∀ k s, statesFrom fetch domain k s = none →
      ∀ fuel, (itemsLoop fetch domain fuel s.1 s.2).1.length ≤ k := by
  intro k
  induction k with
  | zero => intro s h; simp [statesFrom] at h
  | succ n ih =>
    intro s h fuel
    cases fuel with
    | zero => simp [itemsLoop]
    | succ m =>
      rw [itemsLoop]
      by_cases hd : (dispatchPage domain (fetch s.1 s.2)).2 = true
      · simp [hd]
      · cases hfp : find_pager_url (fetch s.1 s.2) with
        | none => simp [hd, hfp]
        | some nxt =>
          have hst : stepState fetch domain s = some (unescape nxt, none) := by
            simp [stepState, hd, hfp]
          rw [statesFrom, hst] at h
          have hlen := ih (unescape nxt, none) h m
          simp only [hd, hfp, Bool.false_eq_true, if_false, List.length_cons]
          simpa using Nat.succ_le_succ hlen

/-- C3: in any run of the Pagination Driver's items loop, only the first
HTTP request carries the caller-supplied allow-listed query parameters;
every request after the first (every fetch of a URL taken from a
`pager-next` link) is issued with no extra query parameters. -/
theorem claim_C3 (fetch : Fetch) (domain path : List Char) (q : QueryMap) (fuel : Nat) :
    (entriesItems fetch domain path q (fuel + 1)).1.head?
        = some (httpsLit ++ domain ++ path, some q)
    ∧ (((entriesItems fetch domain path q (fuel + 1)).1.drop 1).all
        fun p => p.2.isNone) = true := by
  unfold entriesItems
  generalize httpsLit ++ domain ++ path = u
  simp only [itemsLoop]
  by_cases hd : (dispatchPage domain (fetch u (some q))).2 = true
  · rw [if_pos hd]
    exact ⟨rfl, by simp⟩
  · rw [if_neg hd]
    cases hfp : find_pager_url (fetch u (some q)) with
    | none => exact ⟨rfl, by simp⟩
    | some nxt =>
      refine ⟨rfl, ?_⟩
      simpa using itemsLoop_trace_query_none fetch domain fuel (unescape nxt)

/-- C4: a page whose raw body has no `pager-next` marker ends the run
after exactly the one fetch of that page (the trace of the whole run is
that single request); and a run whose driver chain dies within `k`
transitions — as it must once some fetched page lacks the marker —
performs at most `k` fetches no matter how much fuel is available. -/
theorem claim_C4 (fetch : Fetch) (domain url : List Char) (q : Option QueryMap)
    (k fuel : Nat) :
    (containsSub (fetch url q) pagerNextLit = false →
      (itemsLoop fetch domain (fuel + 1) url q).1 = [(url, q)])
    ∧ (statesFrom fetch domain k (url, q) = none →
      (itemsLoop fetch domain fuel url q).1.length ≤ k) := by
  constructor
  · intro h
    have hfp := find_pager_url_none _ h
    rw [itemsLoop]
    by_cases hd : (dispatchPage domain (fetch url q)).2 = true
    · simp [hd]
    · simp [hd, hfp]
  · intro h
    exact itemsLoop_dead_chain_len fetch domain k (url, q) h fuel

/-- Witness for C4 at a concrete fetch collaborator whose only page has
no pager marker: one fetch, and the chain dies within one transition. -/
theorem claim_C4_witness :
    (itemsLoop (fun _ _ => "x".data) "d".data 1 "u".data none).1 = [("u".data, none)]
    ∧ (itemsLoop (fun _ _ => "x".data) "d".data 5 "u".data none).1.length ≤ 1 :=
  ⟨(claim_C4 (fun _ _ => "x".data) "d".data "u".data none 1 0).1 (by decide),
   (claim_C4 (fun _ _ => "x".data) "d".data "u".data none 1 5).2 (by decide)⟩

/-- Counterexample to C1 as stated: an article whose canonical link lacks
`/entry/` is NOT a parse failure — the parser emits a normal Directory
record whose `entry` field is the empty string. -/
theorem claim_C1_counterexample :
    containsSub (parseArticle noEntryLinkArticle).link entrySep = false
    ∧ handle_article "d".data noEntryLinkArticle
        = ([Msg.directory ⟨"d".data, "D".data, [], "T".data, 0⟩], false) := by
  constructor
  · decide
  · decide

/-- C1 amended: when the canonical link lacks `/entry/`, the parser still
emits a Directory record (no error), and that record's `entry` field is
the empty string. -/
theorem claim_C1 (domain article : List Char)
    (hok : (handle_article domain article).2 = false)
    (hlink : containsSub (parseArticle article).link entrySep = false) :
    ∃ r rest, (handle_article domain article).1 = Msg.directory r :: rest
      ∧ r.entry = [] := by
  unfold handle_article at hok ⊢
  cases hc : collectImages (find_img (parseArticle article).content) with
  | none => simp [hc] at hok
  | some imgs =>
    simp only [hc]
    exact ⟨_, _, rfl, afterFirst_of_not_contains _ _ hlink⟩

/-- Witness for the amended C1 at the concrete article above. -/
theorem claim_C1_witness :
    ∃ r rest, (handle_article "d".data noEntryLinkArticle).1
      = Msg.directory r :: rest ∧ r.entry = [] :=
  claim_C1 "d".data noEntryLinkArticle (by decide) (by decide)

/-- Counterexample to C2 as stated: an article fragment missing all three
required markers is NOT surfaced as an error — the parser emits a normal
Directory record built from empty metadata. -/
theorem claim_C2_counterexample :
    containsSub "x".data timeBeg = false
    ∧ containsSub "x".data anchorEnd = false
    ∧ containsSub "x".data contentBeg = false
    ∧ handle_article "d".data "x".data
        = ([Msg.directory ⟨"d".data, [], [], [], 0⟩], false) := by
  refine ⟨by decide, by decide, by decide, by decide⟩

/-- C2 amended: absence of the date, canonical-link or content marker
never fails the parse — the only error source of the Article Parser is the
image-source dereference; a missing marker merely leaves the corresponding
field empty, and with a missing content marker the article is emitted as a
normal record with zero images. -/
theorem claim_C2 (domain article : List Char) :
    ((handle_article domain article).2 = true
      ↔ collectImages (find_img (parseArticle article).content) = none)
    ∧ (containsSub article timeBeg = false → (parseArticle article).date = [])
    ∧ (containsSub article anchorEnd = false → (parseArticle article).link = [])
    ∧ (containsSub article contentBeg = false →
        (parseArticle article).content = []
        ∧ handle_article domain article
          = ([Msg.directory ⟨domain, (parseArticle article).date,
              afterFirst (parseArticle article).link entrySep,
              (parseArticle article).title, 0⟩], false)) := by
  refine ⟨?_, ?_, ?_, ?_⟩
  · unfold handle_article
    cases hc : collectImages (find_img (parseArticle article).content) with
    | none => simp [hc]
    | some imgs => simp [hc]
  · intro h
    have hd := extract_from_no_beg article timeBeg quoteMark 0 h
    simp [parseArticle, hd]
  · intro h
    have hl := fun pos => extract_from_no_end article hrefBeg anchorEnd pos h
    simp [parseArticle, hl, unescape]
  · intro h
    have hcN := fun pos => extract_from_no_beg article contentBeg divClose pos h
    have hcontent : (parseArticle article).content = [] := by
      simp [parseArticle, hcN]
    refine ⟨hcontent, ?_⟩
    simp [handle_article, hcontent, find_img, findImgGo, collectImages, enumUrls]

/-- Witness for the amended C2 at the concrete markerless article. -/
theorem claim_C2_witness :
    (parseArticle "x".data).date = []
    ∧ (parseArticle "x".data).link = []
    ∧ (parseArticle "x".data).content = [] :=
  ⟨(claim_C2 "d".data "x".data).2.1 (by decide),
   (claim_C2 "d".data "x".data).2.2.1 (by decide),
   ((claim_C2 "d".data "x".data).2.2.2 (by decide)).1⟩

/-- C5: the constructed query mapping keeps exactly the input pairs whose
key is `page` or allow-listed, values unchanged; on the Search route the
query `q=a&utm_source=x` yields exactly the mapping with `q` bound to `a`
(`utm_source` dropped); and `page` is acceptable on every listing route. -/
theorem claim_C5 (allowed : List (List Char)) (raw : List Char) (k v : List Char) :
    ((k, v) ∈ initQuery allowed raw
      ↔ ((k, v) ∈ parse_query raw ∧ (k = pageKey ∨ k ∈ allowed)))
    ∧ acceptable_query allowed pageKey = true
    ∧ initQuery searchAllowed "q=a&utm_source=x".data = [("q".data, "a".data)] := by
  refine ⟨?_, by simp [acceptable_query], by decide⟩
  simp [initQuery, List.mem_filter, acceptable_query]

/-- C6: the derived `entry` is everything after the FIRST occurrence of
`/entry/` in the canonical link (the occurrence `afterFirst` splits on is
an occurrence, and no earlier position is one); instantiated on the spec's
worked link the pipeline derives `2024/01/02/1234`. -/
theorem claim_C6 (link : List Char) (i : Nat) :
    (substrIdx link entrySep = some i →
      litAt entrySep (link.drop i) = true
      ∧ (∀ j, j < i → litAt entrySep (link.drop j) = false)
      ∧ afterFirst link entrySep = link.drop (i + entrySep.length))
    ∧ (parseArticle entryLinkArticle).link
        = "https://h.example/entry/2024/01/02/1234".data
    ∧ (handle_article "d".data entryLinkArticle).1
        = [Msg.directory ⟨"d".data, "D".data, "2024/01/02/1234".data,
            "T".data, 0⟩] := by
  refine ⟨?_, by decide, by decide⟩
  intro h
  refine ⟨substrIdx_litAt link entrySep i h, substrIdx_minimal link entrySep i h, ?_⟩
  unfold afterFirst
  rw [h]

/-- Witness for C6 on the spec's example link (`/entry/` sits at index 17). -/
theorem claim_C6_witness :
    litAt entrySep ("https://h.example/entry/2024/01/02/1234".data.drop 17) = true
    ∧ afterFirst "https://h.example/entry/2024/01/02/1234".data entrySep
        = "https://h.example/entry/2024/01/02/1234".data.drop (17 + entrySep.length) :=
  ⟨((claim_C6 "https://h.example/entry/2024/01/02/1234".data 17).1 (by decide)).1,
   ((claim_C6 "https://h.example/entry/2024/01/02/1234".data 17).1 (by decide)).2.2⟩

/-- C7: a full-layout article fragment whose opening-tag attributes
contain `no-entry` produces zero messages and the scan continues from the
position just past that opening tag; and on the concrete Entry-route page
with one `no-entry` article followed by one real article, the run yields
exactly one Directory item. -/
theorem claim_C7 (domain doc : List Char) (pos fuel : Nat) :
    (containsSub (extract_from doc articleBeg gtMark pos).1 noEntryLit = true →
      handle_full_articles domain doc (fuel + 1) pos
        = handle_full_articles domain doc fuel
            (extract_from doc articleBeg gtMark pos).2)
    ∧ ((entryItems "d".data noEntryThenRealPage).1.filter Msg.isDirectory).length
        = 1 := by
  refine ⟨?_, by decide⟩
  intro h
  have hne : (extract_from doc articleBeg gtMark pos).1.isEmpty = false := by
    cases hx : (extract_from doc articleBeg gtMark pos).1 with
    | nil =>
      rw [hx] at h
      exact absurd h (by decide)
    | cons a b => rfl
  conv_lhs => rw [handle_full_articles]
  simp [hne, h]

/-- Witness for C7: the concrete page's first fragment is a `no-entry`
one, and the one-step skip equation holds there. -/
theorem claim_C7_witness :
    handle_full_articles "d".data noEntryThenRealPage 4 0
      = handle_full_articles "d".data noEntryThenRealPage 3
          (extract_from noEntryThenRealPage articleBeg gtMark 0).2 :=
  (claim_C7 "d".data noEntryThenRealPage 0 3).1 (by decide)

/-- C8: when every qualifying image has a source, the image loop keeps
exactly the images satisfying the content-image predicate, in document
order; and on the concrete article with one qualifying image among three,
the record has `count` 1 and exactly one Url item, numbered 1. -/
theorem claim_C8 (l : List (List Char)) :
    ((∀ a ∈ l, is_image a = true → (find_img_src a).isSome = true) →
      collectImages l
        = some ((l.filter is_image).map
            (fun a => unescape ((find_img_src a).getD []))))
    ∧ handle_article "d".data mixedImagesArticle
        = ([Msg.directory ⟨"d".data, "D".data, "a".data, "T".data, 1⟩,
            Msg.url "u2".data 1], false) := by
  refine ⟨?_, by decide⟩
  induction l with
  | nil => intro h2; simp [collectImages]
  | cons a rest ih =>
    intro h2
    by_cases hi : is_image a = true
    · have hs : (find_img_src a).isSome = true := h2 a (by simp) hi
      cases hf : find_img_src a with
      | none => rw [hf] at hs; cases hs
      | some src =>
        have hrest := ih (fun b hb => h2 b (by simp [hb]))
        simp [collectImages, hi, hf, hrest]
    · have hrest := ih (fun b hb => h2 b (by simp [hb]))
      simp [collectImages, hi, hrest]

/-- Witness for C8 on a two-element attribute list (one qualifying with a
source, one not qualifying). -/
theorem claim_C8_witness :
    collectImages ["src=\"u2\" class=\"hatena-fotolife\"".data, "src=\"u1\" class=\"deco\"".data]
      = some ((["src=\"u2\" class=\"hatena-fotolife\"".data, "src=\"u1\" class=\"deco\"".data].filter
          is_image).map (fun a => unescape ((find_img_src a).getD []))) :=
  (claim_C8 ["src=\"u2\" class=\"hatena-fotolife\"".data, "src=\"u1\" class=\"deco\"".data]).1
    (by decide)

/-- C9: the partial-layout handler emits Queue items only (never
Directory or Url); and a run over the concrete partial page with five
summaries and no pager marker performs exactly one fetch and emits
exactly the five Queue items, in page order, then stops. -/
theorem claim_C9 (doc : List Char) (fuel pos : Nat) :
    ((handle_partial_articles doc fuel pos).all Msg.isQueue = true)
    ∧ itemsLoop (fun _ _ => archivePage) "d".data (fuel + 1) "u0".data (some [])
        = ([("u0".data, some [])],
           [archiveQueueMsg '1', archiveQueueMsg '2', archiveQueueMsg '3',
            archiveQueueMsg '4', archiveQueueMsg '5'], false) := by
  constructor
  · induction fuel generalizing pos with
    | zero => simp [handle_partial_articles]
    | succ n ih =>
      rw [handle_partial_articles]
      by_cases hs : (extract_from doc sectionBeg sectionClose pos).1.isEmpty = true
      · simp [hs]
      · simp [hs, ih, Msg.isQueue]
  · have hd : dispatchPage "d".data archivePage
        = ([archiveQueueMsg '1', archiveQueueMsg '2', archiveQueueMsg '3',
            archiveQueueMsg '4', archiveQueueMsg '5'], false) := by decide
    have hp : find_pager_url archivePage = none := by decide
    rw [itemsLoop]
    simp [hd, hp]

/-- If some attribute string in the image-match list qualifies as a
content image but has no extractable source, the whole image loop fails
(it neither skips the image nor drops it silently). -/
theorem collectImages_none_of_src_fail (a : List Char) (hi : is_image a = true)
    (hn : find_img_src a = none) :
    ∀ l : List (List Char), a ∈ l → collectImages l = none := by
  intro l
  induction l with
  | nil => intro h; cases h
  | cons b rest ih =>
    intro hmem
    rcases List.mem_cons.mp hmem with rfl | hm2
    · simp [collectImages, hi, hn]
    · by_cases hib : is_image b = true
      · cases hfb : find_img_src b with
        | none => simp [collectImages, hib, hfb]
        | some src => simp [collectImages, hib, hfb, ih hm2]
      · simp [collectImages, hib, ih hm2]

/-- C10: a qualifying image without a matching `src="..."` attribute makes
the Article Parser raise (the unguarded `.group(1)` dereference), modelled
as the failing result: the image loop returns `none`, and on the concrete
article the parser errors without emitting anything. -/
theorem claim_C10 (l : List (List Char)) (a : List Char) :
    (a ∈ l → is_image a = true → find_img_src a = none → collectImages l = none)
    ∧ collectImages (find_img (parseArticle fotoNoSrcArticle).content) = none
    ∧ handle_article "d".data fotoNoSrcArticle = ([], true) :=
  ⟨fun hm hi hn => collectImages_none_of_src_fail a hi hn l hm,
   by decide, by decide⟩

/-- Witness for C10 at the singleton list of the concrete bad attribute
string. -/
theorem claim_C10_witness :
    collectImages ["class=\"hatena-fotolife\"".data] = none :=
  (claim_C10 ["class=\"hatena-fotolife\"".data] "class=\"hatena-fotolife\"".data).1
    (by decide) (by decide) (by decide)

